import Mathlib

set_option maxHeartbeats 1000000

/-!
Shallow embedding of the REINFORCE-with-baseline training script
(REINFORCE_BASELINE_PolicyNet5_proof.py).  Numeric code is embedded with
exact rational (and, for the analytic activations, real) arithmetic.
Tensors that carry a gradient are modelled by `Dual`, a value together with
a derivative component; the `.item()` read-out keeps the value and drops the
derivative.  The two process-wide pseudo random generators (numpy and torch)
are modelled as explicit streams of draw values consumed sequentially
through counters.  The feed forward networks, the Gaussian log density and
entropy, and the utility function enter an episode only through their
forward functions, collected in `Model`.
-/

namespace ReinforceBaseline

/-- Time increment of the discrete horizon (source line 23). -/
def dt : ℚ := 1 / 52

/-- Total time horizon (source line 24). -/
def T : ℚ := 2 * dt

/-- Number of time steps, the floor of the horizon over the increment
(source line 26). -/
def N : ℕ := (Rat.floor (T / dt)).toNat

/-- Drift of the stock (source line 30). -/
def mu : ℚ := 1 / 10

/-- Volatility of the stock (source line 31). -/
def sigma : ℚ := 1 / 10

/-- Risk free rate (source line 32). -/
def r : ℚ := 1 / 50

/-- Sharpe ratio (source line 33). -/
def rho : ℚ := (mu - r) / sigma

/-- Temperature parameter for the entropy bonus (source line 34). -/
def lam : ℚ := 1 / 1000

/-- Exponent of the power utility function (source line 36). -/
def gamma : ℚ := 1 / 2

/-- Optimal control for the power utility (source lines 207-210). -/
def true_mean (x : ℚ) : ℚ := (rho * x) / (sigma * (1 - gamma))

/-- A first-order autodiff value: the numeric value of a tensor together
with its derivative along one abstract parameter direction.  `.item()`
reads off the value and detaches the derivative. -/
@[ext]
structure Dual where
  val : ℚ
  der : ℚ
deriving DecidableEq, Repr

instance : Zero Dual := ⟨⟨0, 0⟩⟩

instance : Add Dual := ⟨fun a b => ⟨a.val + b.val, a.der + b.der⟩⟩

/-- Multiplication of a tensor by a plain scalar, as in `-d * vals`. -/
def Dual.cmul (c : ℚ) (d : Dual) : Dual := ⟨c * d.val, c * d.der⟩

/-- The `.item()` read-out: the plain numeric value, detached. -/
def Dual.item (d : Dual) : ℚ := d.val

instance : AddCommMonoid Dual where
  add_assoc a b c := Dual.ext (add_assoc _ _ _) (add_assoc _ _ _)
  zero_add a := Dual.ext (zero_add _) (zero_add _)
  add_zero a := Dual.ext (add_zero _) (add_zero _)
  add_comm a b := Dual.ext (add_comm _ _) (add_comm _ _)
  nsmul := nsmulRec

/-- Reading the derivative component is additive. -/
def Dual.derHom : Dual →+ ℚ := ⟨⟨Dual.der, rfl⟩, fun _ _ => rfl⟩

/-- Everything one training episode consumes from the outside: the policy
network forward pass `pf` on a state (wealth, time to maturity) returning
(mean, sd); the Gaussian log density `lp` of an action (a differentiable
tensor); the Gaussian entropy `ent` of the sd; the value network forward
pass `vf`; the utility function `u`; the constant `sq` standing for
`np.sqrt(dt)`; and the two streams `gnp`, `gt` of values produced by the
numpy and the torch pseudo random generators, consumed sequentially. -/
@[ext]
structure Model where
  pf : ℚ → ℚ → ℚ × ℚ
  lp : ℚ → ℚ → ℚ → Dual
  ent : ℚ → ℚ
  vf : ℚ → ℚ → Dual
  u : ℚ → ℚ
  sq : ℚ
  gnp : ℕ → ℚ
  gt : ℕ → ℚ

/-- The mutable attributes of the `Agent` object touched during a rollout
(source lines 96-140): the three per-episode buffers and the `mean`, `sd`,
`reward` attributes set by `choose_action`. -/
structure AgentState where
  reward_memory : List ℚ
  action_memory : List Dual
  value_memory : List Dual
  mean : ℚ
  sd : ℚ
  reward : ℚ
deriving DecidableEq, Repr

/-- The state of the training loop inside one episode: current wealth, the
positions of the numpy and the torch streams, the agent attributes and the
`episode_wealths` list. -/
structure RState where
  w : ℚ
  cn : ℕ
  ct : ℕ
  ag : AgentState
  wealths : List ℚ
deriving DecidableEq, Repr

/-- The action sampled inside `choose_action`: mean + sd * z with z the next
torch standard normal draw (source lines 111-113). -/
def sampleAction (m : Model) (w t : ℚ) (ct : ℕ) : ℚ :=
  (m.pf w (T - t)).1 + (m.pf w (T - t)).2 * m.gt ct

/-- `Agent.choose_action` (source lines 108-118): computes mean and sd with
the policy network on state [wealth, T - t], samples an action from the
Normal distribution, appends its log probability to `action_memory`, sets
the `mean`, `sd` and `reward` (entropy bonus) attributes, and returns the
action together with the advanced torch stream position. -/
def choose_action (m : Model) (a : AgentState) (w t : ℚ) (ct : ℕ) :
    ℚ × AgentState × ℕ :=
  (sampleAction m w t ct,
   { a with
     mean := (m.pf w (T - t)).1
     sd := (m.pf w (T - t)).2
     action_memory := a.action_memory ++
       [m.lp (m.pf w (T - t)).1 (m.pf w (T - t)).2 (sampleAction m w t ct)]
     reward := lam * m.ent (m.pf w (T - t)).2 },
   ct + 1)

/-- `Agent.get_value` (source lines 120-124): value network forward pass on
state [wealth, T - t]. -/
def get_value (m : Model) (w t : ℚ) : Dual := m.vf w (T - t)

/-- The wealth transition (source lines 192-195): one fresh numpy standard
normal draw and no other randomness; returns the new wealth together with
the advanced numpy stream position. -/
def wealth (m : Model) (x sample : ℚ) (cn : ℕ) : ℚ × ℕ :=
  (x + sigma * sample * (rho * dt + m.sq * m.gnp cn), cn + 1)

/-- Clamp of negative wealth to exactly zero (source lines 259-261). -/
def clampW (x : ℚ) : ℚ := if x < 0 then 0 else x

/-- Result of one iteration of the rollout loop: the new loop state, the
(clamped) new wealth of this step, and whether the ruin break fired. -/
structure StepRes where
  st : RState
  nw : ℚ
  broke : Bool
deriving DecidableEq, Repr

/-- One iteration of the rollout loop at step `i` with loop bound `n`
(source lines 246-267): record the wealth, store the value estimate, choose
an action (storing its log probability and the entropy reward), store the
reward, advance the wealth, clamp it at zero, and on ruin pad the remaining
`n - 1 - i` steps with zero rewards and zero value tensors and break. -/
def stepBody (m : Model) (n i : ℕ) (st : RState) : StepRes :=
  let t : ℚ := (i : ℚ) * dt
  let wlths := st.wealths ++ [st.w]
  let v := get_value m st.w t
  let ag1 := { st.ag with value_memory := st.ag.value_memory ++ [v] }
  let ca := choose_action m ag1 st.w t st.ct
  let ag2 := ca.2.1
  let ct2 := ca.2.2
  let ag3 := { ag2 with reward_memory := ag2.reward_memory ++ [ag2.reward] }
  let ws := wealth m st.w ca.1 st.cn
  let nw := clampW ws.1
  if nw = 0 then
    { st := { w := nw, cn := ws.2, ct := ct2,
              ag := { ag3 with
                reward_memory := ag3.reward_memory ++ List.replicate (n - 1 - i) 0,
                value_memory := ag3.value_memory ++ List.replicate (n - 1 - i) ⟨0, 0⟩ },
              wealths := wlths },
      nw := nw, broke := true }
  else
    { st := { w := nw, cn := ws.2, ct := ct2, ag := ag3, wealths := wlths },
      nw := nw, broke := false }

/-- The rollout loop `for i in range(n)` run from step `i` with `fuel`
iterations left (`fuel = n - i` at every call), threading the last computed
new wealth; stops early when the ruin break fires. -/
def runFuel (m : Model) (n : ℕ) : ℕ → ℕ → RState → ℚ → RState × ℚ
  | 0, _, st, lastnw => (st, lastnw)
  | fuel + 1, i, st, _lastnw =>
      let res := stepBody m n i st
      if res.broke then (res.st, res.nw) else runFuel m n fuel (i + 1) res.st res.nw

/-- One full episode of the training loop (source lines 242-268): draw the
initial wealth from the numpy generator, run the rollout loop over `N`
steps, and append the terminal utility reward `util(new_wealth)`.  Returns
the final loop state and the final new wealth. -/
def episode (m : Model) (cn ct : ℕ) : RState × ℚ :=
  let w0 := m.gnp cn
  let st0 : RState :=
    { w := w0, cn := cn + 1, ct := ct,
      ag := { reward_memory := [], action_memory := [], value_memory := [],
              mean := 0, sd := 0, reward := 0 },
      wealths := [] }
  let res := runFuel m N N 0 st0 0
  ({ res.1 with ag := { res.1.ag with
        reward_memory := res.1.ag.reward_memory ++ [m.u res.2] } }, res.2)

/-- Ruin at rollout step 0: the clamped new wealth computed by step 0 of the
episode starting at stream positions (cn, ct) is exactly zero. -/
def ruinAtZero (m : Model) (cn ct : ℕ) : Prop :=
  clampW ((wealth m (m.gnp cn)
    (sampleAction m (m.gnp cn) (((0 : ℕ) : ℚ) * dt) ct) (cn + 1)).1) = 0

instance (m : Model) (cn ct : ℕ) : Decidable (ruinAtZero m cn ct) := by
  unfold ruinAtZero; infer_instance

/-- The list G of accumulated rewards built by `Agent.learn` (source lines
150-155): for j in range(n), the inner loop sums `reward_memory[k+1]` for k
from j to n-1.  The loop bound `n` stands for the global step count `N`. -/
def learnG (n : ℕ) (rw : List ℚ) : List ℚ :=
  (List.range n).map (fun j => ∑ k in Finset.Ico j n, rw.getD (k + 1) 0)

/-- The delta list of `Agent.learn` (source lines 157-159):
`G[j] - value_memory[j].item()`. -/
def learnDeltas (n : ℕ) (rw : List ℚ) (vm : List Dual) : List ℚ :=
  (List.range n).map (fun j => (learnG n rw).getD j 0 - Dual.item (vm.getD j 0))

/-- `val_loss` of `Agent.learn` (source lines 171-173): running sum of
`-d * vals` over `zip(deltas, value_memory)`. -/
def val_loss (ds : List ℚ) (vm : List Dual) : Dual :=
  (ds.zip vm).foldl (fun acc p => acc + Dual.cmul (-p.1) p.2) 0

/-- `policy_loss` of `Agent.learn` (source lines 175-177): running sum of
`-d * logprob` over `zip(deltas, action_memory)`. -/
def policy_loss (ds : List ℚ) (am : List Dual) : Dual :=
  (ds.zip am).foldl (fun acc p => acc + Dual.cmul (-p.1) p.2) 0

/-- `total_loss` of `Agent.learn` (source line 179), the scalar
backpropagated by the single `backward()` call. -/
def total_loss (n : ℕ) (rw : List ℚ) (vm am : List Dual) : Dual :=
  val_loss (learnDeltas n rw vm) vm + policy_loss (learnDeltas n rw vm) am

noncomputable section

/-- Softplus activation `F.softplus` (source line 68). -/
def softplus (x : ℝ) : ℝ := Real.log (1 + Real.exp x)

/-- Leaky relu activation with negative slope `c` (source lines 59-60). -/
def leakyRelu (c x : ℝ) : ℝ := if x < 0 then c * x else x

/-- An affine layer `nn.Linear` from `m` inputs to `n` outputs. -/
structure Layer (m n : ℕ) where
  w : Fin n → Fin m → ℝ
  b : Fin n → ℝ

/-- Application of an affine layer. -/
def Layer.apply {m n : ℕ} (L : Layer m n) (x : Fin m → ℝ) : Fin n → ℝ :=
  fun i => (∑ j, L.w i j * x j) + L.b i

/-- The `PolicyNetwork` with its three affine layers of hidden widths `d1`
and `d2` (source lines 41-55). -/
structure PolicyNetwork (d1 d2 : ℕ) where
  fc1 : Layer 2 d1
  fc2 : Layer d1 d2
  fc3 : Layer d2 2

/-- `PolicyNetwork.forward` (source lines 57-71): two leaky relu hidden
layers with slope 0.1, then the first output slice is returned unchanged
(the mean may be negative) and the second slice is passed through softplus
(the sd is made positive); the two are concatenated. -/
def PolicyNetwork.forward {d1 d2 : ℕ} (net : PolicyNetwork d1 d2)
    (obs : Fin 2 → ℝ) : Fin 2 → ℝ :=
  let x1 := fun i => leakyRelu (1 / 10) (net.fc1.apply obs i)
  let x2 := fun i => leakyRelu (1 / 10) (net.fc2.apply x1 i)
  let x3 := net.fc3.apply x2
  fun i => if i = 0 then x3 0 else softplus (x3 1)

/-- The scale with which `Agent.choose_action` builds its Normal action
distribution for state [wealth, T - t] (source lines 108-112): the second
component of the policy forward pass. -/
def agentSd {d1 d2 : ℕ} (net : PolicyNetwork d1 d2) (w t : ℝ) : ℝ :=
  net.forward (fun i => if i = 0 then w else (T : ℝ) - t) 1

/-- The utility function (source lines 197-199): wealth raised to the
exponent gamma. -/
def utilR (x : ℝ) : ℝ := x ^ ((gamma : ℚ) : ℝ)

end

/-- A concrete all-zero model used to instantiate theorems with
hypotheses.  Its episode is ruined at step 0. -/
def M0 : Model :=
  { pf := fun _ _ => (0, 0), lp := fun _ _ _ => ⟨0, 0⟩, ent := fun _ => 0,
    vf := fun _ _ => ⟨0, 0⟩, u := fun _ => 0, sq := 0,
    gnp := fun _ => 0, gt := fun _ => 0 }

/-- A second concrete model: it agrees with `M0` on `sq` and on the numpy
stream but differs on the torch stream and the utility. -/
def M1 : Model := { M0 with gt := fun _ => 1, u := fun _ => 5 }

/-- The program's step count evaluates to 2. -/
lemma N_two : N = 2 := by with_unfolding_all decide

/-- The sum of a rational list is the sum of its entries by index. -/
lemma listSum_eq_sum_getD (l : List ℚ) :
    l.sum = ∑ i in Finset.range l.length, l.getD i 0 := by
  induction l with
  | nil => simp
  | cons a t ih =>
    rw [List.sum_cons, List.length_cons, Finset.sum_range_succ']
    simp only [List.getD_cons_succ, List.getD_cons_zero]
    rw [ih]
    exact (add_comm _ _)

/-- Indexing into a dropped list shifts the index. -/
lemma getD_drop_q (a : ℕ) : ∀ (l : List ℚ) (i : ℕ),
    (l.drop a).getD i 0 = l.getD (a + i) 0 := by
  induction a with
  | zero => intro l i; simp
  | succ a ih =>
    intro l i
    cases l with
    | nil => simp
    | cons x t =>
      rw [List.drop_succ_cons, ih t i,
        show a + 1 + i = a + i + 1 from by omega, List.getD_cons_succ]

/-- The sum of a suffix of a list as a sum over an index interval. -/
lemma dropSum (l : List ℚ) (a : ℕ) :
    (l.drop a).sum = ∑ k in Finset.Ico a l.length, l.getD k 0 := by
  rw [listSum_eq_sum_getD, List.length_drop, Finset.sum_Ico_eq_sum_range]
  exact Finset.sum_congr rfl fun i _ => getD_drop_q a l i

/-- Indexing a mapped range below the bound evaluates the function. -/
lemma getD_map_range {α : Type} (d : α) (f : ℕ → α) (n j : ℕ) (hj : j < n) :
    ((List.range n).map f).getD j d = f j := by
  have hlen : j < ((List.range n).map f).length := by simpa using hj
  rw [List.getD_eq_getElem _ _ hlen]
  simp

@[simp] lemma Dual.add_val (a b : Dual) : (a + b).val = a.val + b.val := rfl

@[simp] lemma Dual.add_der (a b : Dual) : (a + b).der = a.der + b.der := rfl

@[simp] lemma Dual.zero_val : (0 : Dual).val = 0 := rfl

@[simp] lemma Dual.zero_der : (0 : Dual).der = 0 := rfl

@[simp] lemma Dual.cmul_val (c : ℚ) (d : Dual) : (Dual.cmul c d).val = c * d.val := rfl

@[simp] lemma Dual.cmul_der (c : ℚ) (d : Dual) : (Dual.cmul c d).der = c * d.der := rfl

lemma Dual.cmul_zero (c : ℚ) : Dual.cmul c 0 = 0 := Dual.ext (mul_zero c) (mul_zero c)

/-- Reading the derivative component commutes with finite sums. -/
lemma der_sum (s : Finset ℕ) (f : ℕ → Dual) :
    (∑ j in s, f j).der = ∑ j in s, (f j).der := by
  induction s using Finset.induction with
  | empty => simp
  | insert hx ih => rw [Finset.sum_insert hx, Finset.sum_insert hx, Dual.add_der, ih]

/-- The running sums of `-d * tensor` over a zip, as in val_loss and
policy_loss, equal a sum over the indices below the shorter length. -/
lemma zip_foldl_cmul : ∀ (l1 : List ℚ) (l2 : List Dual) (init : Dual),
    (l1.zip l2).foldl (fun acc p => acc + Dual.cmul (-p.1) p.2) init =
      init + ∑ j in Finset.range (min l1.length l2.length),
        Dual.cmul (-(l1.getD j 0)) (l2.getD j 0) := by
  intro l1
  induction l1 with
  | nil => intro l2 init; simp
  | cons a t ih =>
    intro l2 init
    cases l2 with
    | nil => simp
    | cons b s =>
      rw [List.zip_cons_cons, List.foldl_cons, ih s (init + Dual.cmul (-a) b),
        List.length_cons, List.length_cons, Nat.succ_min_succ,
        Finset.sum_range_succ']
      simp only [List.getD_cons_succ, List.getD_cons_zero]
      rw [add_assoc]
      congr 1
      exact add_comm _ _

/-- C2: Agent.learn computes delta(j) = G[j] - value_memory[j].item() for
j = 0..n-1, and the scalar it backpropagates equals the sum of the value
loss and the policy loss over j = 0..n-1; the deltas enter both losses as
plain detached scalars, scaling the original differentiable tensors, so the
derivative of the total loss treats every delta as a constant. -/
theorem learn_total_loss_eq (n : ℕ) (rw : List ℚ) (vm am : List Dual)
    (_h1 : rw.length = n + 1) (h2 : vm.length = n) (h3 : am.length ≤ n) :
    learnDeltas n rw vm =
      (List.range n).map
        (fun j => (learnG n rw).getD j 0 - Dual.item (vm.getD j 0)) ∧
    total_loss n rw vm am =
      (∑ j in Finset.range n,
          Dual.cmul (-(learnDeltas n rw vm).getD j 0) (vm.getD j 0)) +
        ∑ j in Finset.range n,
          Dual.cmul (-(learnDeltas n rw vm).getD j 0) (am.getD j 0) ∧
    (total_loss n rw vm am).der =
      (∑ j in Finset.range n,
          -(learnDeltas n rw vm).getD j 0 * (vm.getD j 0).der) +
        ∑ j in Finset.range n,
          -(learnDeltas n rw vm).getD j 0 * (am.getD j 0).der := by
  have hdl : (learnDeltas n rw vm).length = n := by simp [learnDeltas]
  have key : total_loss n rw vm am =
      (∑ j in Finset.range n,
          Dual.cmul (-(learnDeltas n rw vm).getD j 0) (vm.getD j 0)) +
        ∑ j in Finset.range n,
          Dual.cmul (-(learnDeltas n rw vm).getD j 0) (am.getD j 0) := by
    rw [total_loss, val_loss, policy_loss, zip_foldl_cmul, zip_foldl_cmul,
      zero_add, zero_add, hdl, h2, min_self, min_eq_right h3]
    congr 1
    refine Finset.sum_subset (Finset.range_subset.mpr h3) ?_
    intro x _ hnx
    have hxlen : am.length ≤ x := by simpa using hnx
    rw [List.getD_eq_default _ _ hxlen, Dual.cmul_zero]
  refine ⟨rfl, key, ?_⟩
  rw [key]
  simp only [Dual.add_der, der_sum, Dual.cmul_der]

/-- Witness for C2 on a concrete full-length episode buffer with n = 2. -/
theorem learn_total_loss_eq_witness :
    ([1, 2, 3] : List ℚ).length = 2 + 1 ∧
    ([⟨5, 1⟩, ⟨7, 2⟩] : List Dual).length = 2 ∧
    ([⟨11, 3⟩, ⟨13, 4⟩] : List Dual).length ≤ 2 ∧
    (learnDeltas 2 [1, 2, 3] [⟨5, 1⟩, ⟨7, 2⟩] =
      (List.range 2).map
        (fun j => (learnG 2 [1, 2, 3]).getD j 0 -
          Dual.item (([⟨5, 1⟩, ⟨7, 2⟩] : List Dual).getD j 0)) ∧
    total_loss 2 [1, 2, 3] [⟨5, 1⟩, ⟨7, 2⟩] [⟨11, 3⟩, ⟨13, 4⟩] =
      (∑ j in Finset.range 2,
          Dual.cmul (-(learnDeltas 2 [1, 2, 3] [⟨5, 1⟩, ⟨7, 2⟩]).getD j 0)
            (([⟨5, 1⟩, ⟨7, 2⟩] : List Dual).getD j 0)) +
        ∑ j in Finset.range 2,
          Dual.cmul (-(learnDeltas 2 [1, 2, 3] [⟨5, 1⟩, ⟨7, 2⟩]).getD j 0)
            (([⟨11, 3⟩, ⟨13, 4⟩] : List Dual).getD j 0) ∧
    (total_loss 2 [1, 2, 3] [⟨5, 1⟩, ⟨7, 2⟩] [⟨11, 3⟩, ⟨13, 4⟩]).der =
      (∑ j in Finset.range 2,
          -(learnDeltas 2 [1, 2, 3] [⟨5, 1⟩, ⟨7, 2⟩]).getD j 0 *
            (([⟨5, 1⟩, ⟨7, 2⟩] : List Dual).getD j 0).der) +
        ∑ j in Finset.range 2,
          -(learnDeltas 2 [1, 2, 3] [⟨5, 1⟩, ⟨7, 2⟩]).getD j 0 *
            (([⟨11, 3⟩, ⟨13, 4⟩] : List Dual).getD j 0).der) :=
  ⟨rfl, rfl, by decide,
    learn_total_loss_eq 2 [1, 2, 3] [⟨5, 1⟩, ⟨7, 2⟩] [⟨11, 3⟩, ⟨13, 4⟩]
      rfl rfl (by decide)⟩

/-- C1: for a completed episode whose stored reward list has n+1 entries,
the return G[j] computed by Agent.learn equals the suffix sum of the stored
rewards from index j+1 to the end, the reward at index j itself excluded. -/
theorem learn_return_eq_suffix_sum (n : ℕ) (rw : List ℚ) (h : rw.length = n + 1)
    (j : ℕ) (hj : j < n) :
    (learnG n rw).getD j 0 = (rw.drop (j + 1)).sum := by
  rw [learnG, getD_map_range 0 _ n j hj, dropSum, h,
    Finset.sum_Ico_eq_sum_range, Finset.sum_Ico_eq_sum_range,
    show n + 1 - (j + 1) = n - j from by omega]
  refine Finset.sum_congr rfl fun i _ => ?_
  congr 1
  omega

/-- Witness for C1 at the synthetic reward sequence of the spec:
rewards [1,2,3,4] with n = 3 give Return(0) = 2+3+4 = 9. -/
theorem learn_return_eq_suffix_sum_witness :
    ([1, 2, 3, 4] : List ℚ).length = 3 + 1 ∧ (0 : ℕ) < 3 ∧
      (learnG 3 [1, 2, 3, 4]).getD 0 0 = (([1, 2, 3, 4] : List ℚ).drop 1).sum :=
  ⟨rfl, by decide,
    learn_return_eq_suffix_sum 3 [1, 2, 3, 4] rfl 0 (by decide)⟩

/-- C10: with the program's constants the Sharpe ratio is exactly 0.8 and
the closed-form optimal control true_mean is exactly 16 times the wealth. -/
theorem sharpe_and_true_mean :
    rho = 0.8 ∧ (∀ x : ℚ, true_mean x = 16 * x) ∧ true_mean 1 = 16 := by
  refine ⟨by unfold rho mu r sigma; norm_num, fun x => ?_, ?_⟩
  · unfold true_mean rho mu r sigma gamma
    ring
  · unfold true_mean rho mu r sigma gamma
    norm_num

/-- C4: the scale emitted by the policy network forward pass, which is the
standard deviation with which choose_action builds its Normal action
distribution, is strictly positive for every input state and every choice
of weights, by the softplus activation alone and with no clamp. -/
theorem policy_scale_pos {d1 d2 : ℕ} (net : PolicyNetwork d1 d2) (w t : ℝ) :
    0 < agentSd net w t := by
  have hsp : ∀ y : ℝ, 0 < softplus y := fun y =>
    Real.log_pos (by have := Real.exp_pos y; linarith)
  simp only [agentSd, PolicyNetwork.forward]
  rw [if_neg (by decide : ¬(1 : Fin 2) = 0)]
  exact hsp _

/-- C5: the wealth transition returns exactly
x + sigma * a * (rho * dt + sqrt(dt) * Z) where Z is the single fresh draw
taken at the current numpy stream position; the stream advances by exactly
one and no other stream value influences the result. -/
theorem wealth_single_draw (m mp : Model) (x a : ℚ) (cn : ℕ)
    (h1 : m.sq = mp.sq) (h2 : m.gnp cn = mp.gnp cn) :
    (wealth m x a cn).1 = x + sigma * a * (rho * dt + m.sq * m.gnp cn) ∧
    (wealth m x a cn).2 = cn + 1 ∧
    wealth m x a cn = wealth mp x a cn := by
  refine ⟨rfl, rfl, ?_⟩
  unfold wealth
  rw [h1, h2]

/-- Witness for C5: two models agreeing on sqrt(dt) and on the draw at the
current position (but nowhere else) produce the same transition. -/
theorem wealth_single_draw_witness :
    M0.sq = M1.sq ∧ M0.gnp 0 = M1.gnp 0 ∧
      ((wealth M0 1 2 0).1 = 1 + sigma * 2 * (rho * dt + M0.sq * M0.gnp 0) ∧
       (wealth M0 1 2 0).2 = 0 + 1 ∧ wealth M0 1 2 0 = wealth M1 1 2 0) :=
  ⟨rfl, rfl, wealth_single_draw M0 M1 1 2 0 rfl rfl⟩

/-- C7 counterexample: choose_action does mutate the agent; on a concrete
input the agent state after the call differs from the one before (the log
probability was appended to action_memory). -/
theorem choose_action_mutates :
    (choose_action M0 ⟨[], [], [], 0, 0, 0⟩ 1 0 0).2.1 ≠
      (⟨[], [], [], 0, 0, 0⟩ : AgentState) := by
  decide

/-- C7 amended: choose_action returns its values but also mutates the
agent: it appends the log probability of the sampled action to
action_memory and overwrites the mean, sd and reward attributes; the
reward_memory and value_memory buffers are untouched. -/
theorem choose_action_frame (m : Model) (a : AgentState) (w t : ℚ) (ct : ℕ) :
    (choose_action m a w t ct).2.1.reward_memory = a.reward_memory ∧
    (choose_action m a w t ct).2.1.value_memory = a.value_memory ∧
    (choose_action m a w t ct).2.1.action_memory =
      a.action_memory ++
        [m.lp (m.pf w (T - t)).1 (m.pf w (T - t)).2 (sampleAction m w t ct)] ∧
    (choose_action m a w t ct).2.1.mean = (m.pf w (T - t)).1 ∧
    (choose_action m a w t ct).2.1.sd = (m.pf w (T - t)).2 ∧
    (choose_action m a w t ct).2.1.reward = lam * m.ent (m.pf w (T - t)).2 ∧
    (choose_action m a w t ct).1 = sampleAction m w t ct ∧
    (choose_action m a w t ct).2.2 = ct + 1 :=
  ⟨rfl, rfl, rfl, rfl, rfl, rfl, rfl, rfl⟩

/-- C9: the episode rollout is a function of the network forward passes,
the distribution functions, the utility, and the two pseudo random streams
alone; two runs with identical parameters and identical draw sequences
produce identical trajectories (wealth path, actions, rewards, value
estimates and buffer contents). -/
theorem episode_deterministic (m mp : Model) (cn ct : ℕ)
    (h1 : m.pf = mp.pf) (h2 : m.lp = mp.lp) (h3 : m.ent = mp.ent)
    (h4 : m.vf = mp.vf) (h5 : m.u = mp.u) (h6 : m.sq = mp.sq)
    (h7 : m.gnp = mp.gnp) (h8 : m.gt = mp.gt) :
    episode m cn ct = episode mp cn ct := by
  have hm : m = mp := Model.ext h1 h2 h3 h4 h5 h6 h7 h8
  rw [hm]

/-- Witness for C9: a rerun of the episode with the same model and the same
stream positions yields the identical trajectory. -/
theorem episode_deterministic_witness :
    (M0.pf = M0.pf ∧ M0.gnp = M0.gnp ∧ M0.gt = M0.gt) ∧
      episode M0 0 0 = episode M0 0 0 :=
  ⟨⟨rfl, rfl, rfl⟩,
    episode_deterministic M0 M0 0 0 rfl rfl rfl rfl rfl rfl rfl rfl⟩

/-- Unfolding of the rollout loop for two remaining iterations. -/
lemma runFuel_two (m : Model) (n i : ℕ) (st : RState) (lastnw : ℚ) :
    runFuel m n 2 i st lastnw =
      (let res := stepBody m n i st
       if res.broke then (res.st, res.nw)
       else
         let res2 := stepBody m n (i + 1) res.st
         if res2.broke then (res2.st, res2.nw) else (res2.st, res2.nw)) := rfl

/-- Closed form of a ruined-at-step-0 episode: step 0 stores one entropy
reward, one value estimate and one log probability, the remaining step is
padded with a zero reward and a zero value tensor, and the terminal utility
reward of the zero final wealth is appended. -/
lemma episode_ruin_eq (m : Model) (cn ct : ℕ) (hr : ruinAtZero m cn ct) :
    episode m cn ct =
      ({ w := 0, cn := cn + 1 + 1, ct := ct + 1,
         ag := { reward_memory := [lam * m.ent (m.pf (m.gnp cn) T).2, 0, m.u 0],
                 action_memory := [m.lp (m.pf (m.gnp cn) T).1 (m.pf (m.gnp cn) T).2
                   (sampleAction m (m.gnp cn) (((0 : ℕ) : ℚ) * dt) ct)],
                 value_memory := [m.vf (m.gnp cn) T, ⟨0, 0⟩],
                 mean := (m.pf (m.gnp cn) T).1, sd := (m.pf (m.gnp cn) T).2,
                 reward := lam * m.ent (m.pf (m.gnp cn) T).2 },
         wealths := [m.gnp cn] }, 0) := by
  unfold ruinAtZero at hr
  simp only [wealth] at hr
  simp only [episode, N_two, runFuel_two, stepBody, get_value, choose_action, wealth]
  rw [if_pos hr, hr]
  simp

/-- C3: in an episode ruined at step i = 0 (the only step i with
i < N - 1 since N = 2), the stored reward and the stored value estimate of
the remaining step are exactly 0, and the terminal reward appended after
the rollout is the utility of the zero final wealth; the utility of 0,
namely 0 raised to the exponent gamma, is 0. -/
theorem ruin_pads_zero_rewards (m : Model) (cn ct : ℕ) (hr : ruinAtZero m cn ct) :
    ((episode m cn ct).1.ag.reward_memory).getD 1 1 = 0 ∧
    ((episode m cn ct).1.ag.value_memory).getD 1 ⟨1, 1⟩ = ⟨0, 0⟩ ∧
    ((episode m cn ct).1.ag.reward_memory).getD N 1 = m.u 0 ∧
    utilR 0 = 0 := by
  rw [episode_ruin_eq m cn ct hr, N_two]
  refine ⟨rfl, rfl, rfl, ?_⟩
  unfold utilR
  rw [Real.zero_rpow]
  rw [show ((gamma : ℚ) : ℝ) = 1 / 2 from by norm_num [gamma]]
  norm_num

/-- Witness for C3: the all-zero model is ruined at step 0 and exhibits the
padded buffers. -/
theorem ruin_pads_zero_rewards_witness :
    ruinAtZero M0 0 0 ∧
      (((episode M0 0 0).1.ag.reward_memory).getD 1 1 = 0 ∧
       ((episode M0 0 0).1.ag.value_memory).getD 1 ⟨1, 1⟩ = ⟨0, 0⟩ ∧
       ((episode M0 0 0).1.ag.reward_memory).getD N 1 = M0.u 0 ∧
       utilR 0 = 0) :=
  ⟨by with_unfolding_all decide,
    ruin_pads_zero_rewards M0 0 0 (by with_unfolding_all decide)⟩

/-- C6: in an episode ruined at step 0 the log probability buffer is not
padded and holds exactly one entry, so the policy loss of Agent.learn
consists of the j = 0 term alone (the zip silently drops the later delta
terms), while the padded zero value tensor contributes no gradient to the
value loss. -/
theorem ruin_truncates_policy_loss (m : Model) (cn ct : ℕ)
    (hr : ruinAtZero m cn ct) :
    ((episode m cn ct).1.ag.action_memory).length = 1 ∧
    policy_loss
        (learnDeltas N (episode m cn ct).1.ag.reward_memory
          (episode m cn ct).1.ag.value_memory)
        (episode m cn ct).1.ag.action_memory =
      Dual.cmul
        (-(learnDeltas N (episode m cn ct).1.ag.reward_memory
            (episode m cn ct).1.ag.value_memory).getD 0 0)
        (((episode m cn ct).1.ag.action_memory).getD 0 0) ∧
    (Dual.cmul
        (-(learnDeltas N (episode m cn ct).1.ag.reward_memory
            (episode m cn ct).1.ag.value_memory).getD 1 0)
        (((episode m cn ct).1.ag.value_memory).getD 1 0)).der = 0 := by
  rw [episode_ruin_eq m cn ct hr, N_two]
  refine ⟨rfl, ?_, ?_⟩
  · rw [policy_loss, zip_foldl_cmul, zero_add]
    simp [learnDeltas]
  · simp

/-- Witness for C6 at the all-zero model, ruined at step 0. -/
theorem ruin_truncates_policy_loss_witness :
    ruinAtZero M0 0 0 ∧
      (((episode M0 0 0).1.ag.action_memory).length = 1 ∧
       policy_loss
           (learnDeltas N (episode M0 0 0).1.ag.reward_memory
             (episode M0 0 0).1.ag.value_memory)
           (episode M0 0 0).1.ag.action_memory =
         Dual.cmul
           (-(learnDeltas N (episode M0 0 0).1.ag.reward_memory
               (episode M0 0 0).1.ag.value_memory).getD 0 0)
           (((episode M0 0 0).1.ag.action_memory).getD 0 0) ∧
       (Dual.cmul
           (-(learnDeltas N (episode M0 0 0).1.ag.reward_memory
               (episode M0 0 0).1.ag.value_memory).getD 1 0)
           (((episode M0 0 0).1.ag.value_memory).getD 1 0)).der = 0) :=
  ⟨by with_unfolding_all decide,
    ruin_truncates_policy_loss M0 0 0 (by with_unfolding_all decide)⟩

/-- C8: whether the episode runs the full horizon or is ruined early, at
the moment Agent.learn is invoked the reward buffer holds exactly N + 1
entries and the value buffer exactly N, so every index used by learn is in
bounds. -/
theorem episode_memory_lengths (m : Model) (cn ct : ℕ) :
    ((episode m cn ct).1.ag.reward_memory).length = N + 1 ∧
    ((episode m cn ct).1.ag.value_memory).length = N := by
  simp only [episode, N_two, runFuel_two, stepBody, get_value, choose_action, wealth]
  split
  · constructor <;> simp
  · split
    · simp_all
    · split
      · constructor <;> simp
      · constructor <;> simp

end ReinforceBaseline
